import Mathlib

/-!
# Verification of the qcodes_qick sweep core

Shallow embedding of the sweep-to-register quantization algorithm, the
hardware/software loop construction, and the acquisition-result assembly
of the `qcodes_qick` repository (files `protocol_base_v2.py`,
`protocols/s21.py`, `s21_protocols.py`, `parameters_v2.py`), together
with theorems settling the specification claims about them.

Physical values are modelled as rationals, integer register codes as
unbounded integers with explicit 64-bit wrapping where the source uses
`numpy.int64` arithmetic.
-/

namespace QcodesQick

/-- Modelled from the spec: the Quantized Parameter Mapper
(`HardwareParameter.float2int` / `int2float` of `qcodes_qick/parameters.py`,
which is not under `src/`): a pure conversion derived from a fixed scale
factor (quantization step) and an optional additive offset. -/
structure QPM where
  step : ℚ
  offset : ℚ

/-- Modelled from the spec: integer code to physical value, a linear map. -/
def QPM.int2float (m : QPM) (n : ℤ) : ℚ :=
  m.offset + n * m.step

/-- Modelled from the spec: physical value to nearest integer code. -/
def QPM.float2int (m : QPM) (x : ℚ) : ℤ :=
  round ((x - m.offset) / m.step)

/-- The identity-scale mapper (step 1, offset 0): integer codes are rounded
values. Used for concrete instantiations. -/
def mRound : QPM := ⟨1, 0⟩

/-- Errors that can abort construction or program building, mirroring the
Python exceptions raised by the source. -/
inductive HWErr
  | divByZero
  | indexError
  | int64Overflow
  | noBinding (p : ℕ)
  | notImplemented
  deriving Repr, DecidableEq

/-- Signed 64-bit wrap-around, the overflow behavior of `numpy.int64`
arithmetic used for `values_int` in `HardwareSweep.__init__`. -/
def wrap64 (x : ℤ) : ℤ :=
  (x + 2 ^ 63) % 2 ^ 64 - 2 ^ 63

/-- Whether an unbounded integer is representable as a `numpy.int64`;
conversion of a Python int outside this range raises `OverflowError`. -/
def fitsInt64 (x : ℤ) : Prop :=
  -(2 ^ 63) ≤ x ∧ x < 2 ^ 63

instance (x : ℤ) : Decidable (fitsInt64 x) := by
  unfold fitsInt64; infer_instance

/-- The resolved hardware sweep: the fields assigned by
`HardwareSweep.__init__` (`protocol_base_v2.py` lines 66-92). -/
structure HWSweepRes where
  parameter : ℕ
  step_int : ℤ
  values_int : List ℤ
  start_int : ℤ
  stop_int : ℤ
  num : ℕ
  start : ℚ
  stop : ℚ
  step : ℚ
  values : List ℚ
  deriving Repr, DecidableEq

/-- Embedding of `HardwareSweep.__init__` (`protocol_base_v2.py` 66-92):
`step_int = float2int((stop - start) / (num - 1))` (ZeroDivisionError when
`num = 1`), `values_int = start_int + step_int * arange(num)` in int64
arithmetic, optional removal of the first/last value, then the endpoint
fields are read from the possibly-emptied list (IndexError when empty). -/
def hardwareSweep (m : QPM) (p : ℕ) (start stop : ℚ) (num : ℕ)
    (skip_first skip_last : Bool) : Except HWErr HWSweepRes :=
  if num = 1 then .error .divByZero
  else
    let step_int := m.float2int ((stop - start) / ((num : ℚ) - 1))
    let start_int0 := m.float2int start
    if ¬ (fitsInt64 step_int ∧ fitsInt64 start_int0) then .error .int64Overflow
    else
      let vs0 := (List.range num).map fun (k : ℕ) => wrap64 (start_int0 + step_int * (k : ℤ))
      let vs1 := if skip_first then vs0.drop 1 else vs0
      let vs2 := if skip_last then vs1.dropLast else vs1
      match vs2 with
      | [] => .error .indexError
      | v0 :: _ =>
        .ok { parameter := p
              step_int := step_int
              values_int := vs2
              start_int := v0
              stop_int := vs2.getLastD 0
              num := vs2.length
              start := m.int2float v0
              stop := m.int2float (vs2.getLastD 0)
              step := m.int2float step_int
              values := vs2.map m.int2float }

/-- The `step_int` field of a successfully constructed sweep (0 on error). -/
def getStepInt : Except HWErr HWSweepRes → ℤ
  | .ok s => s.step_int
  | .error _ => 0

/-- 0/1 view of a skip flag, for counting removed values. -/
def skipCount (b : Bool) : ℕ := if b then 1 else 0

/-- Error raised by `SoftwareSweep.__init__` when the swept parameters do
not all share one unit (the failed `assert` at `protocol_base_v2.py` 54). -/
inductive SWErr
  | unitMismatch
  deriving Repr, DecidableEq

/-- A qcodes parameter as seen by the sweep layer: an identifier and a
physical unit. -/
structure ParamE where
  id : ℕ
  unit : String
  deriving Repr, DecidableEq

/-- The value specification accepted by `SoftwareSweep.__init__`: either an
explicit sequence of values or a `(start, stop, num)` triple for `linspace`. -/
inductive ValuesSpec
  | explicit (values : List ℚ)
  | span (start stop : ℚ) (num : ℕ)
  deriving Repr, DecidableEq

/-- Embedding of `numpy.linspace(start, stop, num)` over rationals: `num`
evenly spaced values from `start` to `stop` inclusive (`[start]` when
`num = 1`, empty when `num = 0`). -/
def linspace (start stop : ℚ) (num : ℕ) : List ℚ :=
  if num ≤ 1 then (List.range num).map fun _ => start
  else (List.range num).map fun k => start + (stop - start) * k / ((num : ℚ) - 1)

/-- The resolved software sweep: the fields assigned by
`SoftwareSweep.__init__` (`protocol_base_v2.py` 39-63). -/
structure SWSweepRes where
  parameters : List ParamE
  values : List ℚ
  deriving Repr, DecidableEq

/-- Embedding of `SoftwareSweep.__init__` (`protocol_base_v2.py` 39-63)
instrumented with a flag recording whether the value-list computation step
was reached: first the unit-uniqueness assert
(`len({parameter.unit ...}) == 1`), then the value list (explicit sequence
or `linspace`), then the optional first/last removals. The returned `Bool`
is `true` iff a value list was materialized. -/
def softwareSweep (parameters : List ParamE) (spec : ValuesSpec)
    (skip_first skip_last : Bool) : Except SWErr SWSweepRes × Bool :=
  if ((parameters.map ParamE.unit).dedup).length ≠ 1 then
    (.error .unitMismatch, false)
  else
    let vs0 := match spec with
      | .explicit values => values
      | .span start stop num => linspace start stop num
    let vs1 := if skip_first then vs0.drop 1 else vs0
    let vs2 := if skip_last then vs1.dropLast else vs1
    (.ok ⟨parameters, vs2⟩, true)

/-- Embedding of `itertools.product` (equally `tqdm_product`) over a list
of value lists, in the source's order: the first list is the outermost,
slowest varying axis. -/
def productAll : List (List α) → List (List α)
  | [] => [[]]
  | xs :: rest => xs.flatMap fun x => (productAll rest).map (x :: ·)

/-- One flattened coordinate grid of `np.meshgrid(*valuess, indexing="ij")`:
the column for axis `i` lists that axis's value at every point of the
row-major product grid. -/
def meshCol (valuess : List (List ℚ)) (i : ℕ) : List ℚ :=
  (productAll valuess).map fun t => t.getD i 0

/-- A register-sweep directive as emitted by `S21Program.initialize`
(`protocols/s21.py` 115-123): the `(start_int, stop_int, num)` arguments
of the `QickSweep` attached to the gain register. -/
def s21Directive (s : HWSweepRes) : ℤ × ℤ × ℕ :=
  (s.start_int, s.stop_int, s.num)

/-- The body of the sweep-attachment loop of `S21Program.initialize`
(`protocols/s21.py` 115-123), over an already-ordered iteration list: a
sweep over the protocol's `pulse_gain` parameter (id `pg`) attaches a
`QickSweep` directive, any other parameter raises `NotImplementedError`. -/
def s21AttachLoop (pg : ℕ) : List HWSweepRes → Except HWErr (List (ℤ × ℤ × ℕ))
  | [] => .ok []
  | s :: rest =>
    if s.parameter = pg then (s21AttachLoop pg rest).map (s21Directive s :: ·)
    else .error .notImplemented

/-- Embedding of the sweep-attachment loop of `S21Program.initialize`
(`protocols/s21.py` 115-123): the loop iterates over
`reversed(hardware_sweeps)`. -/
def s21SweepDirectives (pg : ℕ) (hws : List HWSweepRes) :
    Except HWErr (List (ℤ × ℤ × ℕ)) :=
  s21AttachLoop pg hws.reverse

/-- Embedding of the sweep-attachment loop of `SweepProgram.initialize`
(`protocol_base_v2.py` 267-273): iterate over the hardware sweeps in
declaration order; a sweep whose parameter's owning instrument is a
`QickInstruction` (per the binding predicate `bound`) attaches a register
sweep for that parameter, otherwise `NotImplementedError` is raised. -/
def sweepProgramDirectives (bound : ℕ → Bool) :
    List HWSweepRes → Except HWErr (List ℕ)
  | [] => .ok []
  | s :: rest =>
    if bound s.parameter then
      (sweepProgramDirectives bound rest).map (s.parameter :: ·)
    else .error (.noBinding s.parameter)

/-- Embedding of the control flow of `SweepProtocol.run_hardware_sweeps`
(`protocol_base_v2.py` 208-232): the program is generated first — its
construction runs `initialize`, hence the sweep-attachment loop — and only
then is `AcquireMixin.acquire` invoked. The second component counts the
`acquire` calls made; an error from program construction propagates
unchanged (there is no handler in the source). -/
def runHardwareSweepsTrace (bound : ℕ → Bool) (hws : List HWSweepRes) :
    Except HWErr (List ℕ) × ℕ :=
  match sweepProgramDirectives bound hws with
  | .error e => (.error e, 0)
  | .ok dirs => (.ok dirs, 1)

/-- An observable event of the software-sweep loop of `SweepProtocol.run`:
a parameter assignment, or one rebuild-and-execute of the hardware program
(`run_hardware_sweeps`). -/
inductive RunEvent
  | set (param : ℕ) (value : ℚ)
  | build
  deriving Repr, DecidableEq

/-- Embedding of the software-sweep loop of `SweepProtocol.run`
(`protocol_base_v2.py` 192-204): for each tuple of
`tqdm_product(*soft_sweep_values)`, every parameter of every sweep is set
to its component of the tuple (`zip(software_sweeps, current_values)`),
after which the hardware program is rebuilt and executed once. -/
def runTrace (sweeps : List SWSweepRes) : List RunEvent :=
  (productAll (sweeps.map SWSweepRes.values)).flatMap fun combo =>
    ((sweeps.zip combo).flatMap fun sv =>
      sv.1.parameters.map fun p => RunEvent.set p.id sv.2) ++ [RunEvent.build]

/-- One sample row of the assembled result, per the spec's ResultTable:
the software coordinate tuple, the hardware coordinate tuple (read from
the flattened meshgrid columns produced by `run_hardware_sweeps`), the
data-column index (one per distinct readout-channel/shot pair), and the
sample value. -/
structure Row where
  soft : List ℚ
  hard : List ℚ
  col : ℕ
  sample : ℤ
  deriving Repr, DecidableEq

/-- Modelled from the spec: the Result Assembler rows contributed by one
hardware execution (`measurement-session collaborator` of §6 plus
`run_hardware_sweeps`, `protocol_base_v2.py` 216-232): for every data
column `k` of the acquired block and every point `j` of the flattened
hardware grid, one row pairing the sample with the current software
coordinates and the `j`-th entry of every meshgrid coordinate column. -/
def blockRows (softCombo : List ℚ) (hwValues : List (List ℚ))
    (iq : List (List ℤ)) : List Row :=
  (List.range iq.length).flatMap fun k =>
    (List.range ((iq.getD k []).length)).map fun j =>
      ⟨softCombo,
       (List.range hwValues.length).map fun i => (meshCol hwValues i).getD j 0,
       k,
       (iq.getD k []).getD j 0⟩

/-- Embedding of the full run of `SweepProtocol.run` with software sweeps
(`protocol_base_v2.py` 192-204): one assembled block per software value
combination, visited in `tqdm_product` order; `acq` models the driver's
`acquire` result (one list of samples per data column) for the current
software combination. -/
def runAssembled (sweeps : List SWSweepRes) (hwValues : List (List ℚ))
    (acq : List ℚ → List (List ℤ)) : List Row :=
  (productAll (sweeps.map SWSweepRes.values)).flatMap fun combo =>
    blockRows combo hwValues (acq combo)

/-- The accumulated software coordinate column for iterator `i` in
`S21Protocol.run_program` (`s21_protocols.py` 188-196): per software
combination, the `i`-th component of the current tuple replicated once per
hardware sweep point (`total_hardware_sweep_points`). -/
def softColumn (iters : List (List ℚ)) (totalHW : ℕ) (i : ℕ) : List ℚ :=
  (productAll iters).flatMap fun combo => List.replicate totalHW (combo.getD i 0)

/-- The accumulated hardware coordinate column for axis `i` in
`S21Protocol.run_program` (`s21_protocols.py` 188-189): per software
combination, the flattened coordinate grid of that axis (the meshgrid
output of `handle_hybrid_loop_output`, modelled from the spec's §4.3 as the
outer-product mesh over the resolved value lists). -/
def hardColumn (iters : List (List ℚ)) (hwValues : List (List ℚ)) (i : ℕ) :
    List ℚ :=
  (productAll iters).flatMap fun _ => meshCol hwValues i

/-- Embedding of the coordinate-column assembly of
`S21Protocol.run_program` (`s21_protocols.py` 152-201): the software
columns are built in iterator-declaration order, then
`software_expt_data.reverse()` reverses their order, then the hardware
columns are appended (`software_expt_data.extend(hardware_expt_data)`). -/
def runProgramColumns (iters : List (List ℚ)) (hwValues : List (List ℚ)) :
    List (List ℚ) :=
  let totalHW := (hwValues.map List.length).prod
  ((List.range iters.length).map (softColumn iters totalHW)).reverse
    ++ (List.range hwValues.length).map (hardColumn iters hwValues)

/-- A value assigned to a sweepable parameter: a `QickParam` sweep, a plain
number, or the literal `'auto'` (accepted by `SweepableOrAutoParameter`). -/
inductive SweepableValue
  | sweep (minval maxval : ℚ)
  | num (x : ℚ)
  | auto
  deriving Repr, DecidableEq

/-- The check `isinstance(value, QickParam)` of `set_parser`. -/
def SweepableValue.isSweep : SweepableValue → Bool
  | .sweep _ _ => true
  | _ => false

/-- The state relevant to the swept-parameter registry: each parameter's
current value and the owning instrument's `swept_params` set. -/
structure InstrState where
  value : ℕ → SweepableValue
  swept : Finset ℕ

/-- Embedding of one completed `set()` of a `SweepableParameter` or
`SweepableOrAutoParameter` (`parameters_v2.py` 62-68 and 100-108): the
`set_parser` adds the parameter to `swept_params` when the new value is a
`QickParam` and removes it when present otherwise, and the parsed value
becomes the parameter's current value. -/
def doSet (st : InstrState) (p : ℕ) (v : SweepableValue) : InstrState :=
  { value := fun q => if q = p then v else st.value q
    swept := if v.isSweep then insert p st.swept else st.swept.erase p }

/-- The registry invariant: `swept_params` is exactly the set of parameters
whose current value is a sweep. -/
def sweptInvariant (st : InstrState) : Prop :=
  ∀ p, p ∈ st.swept ↔ (st.value p).isSweep = true

/-- A fine-grained mapper (quantization step `2 ^ (-40)`), whose integer
codes exceed 32-bit register range already for physical spans of order 1. -/
def mBig : QPM := ⟨1 / 2 ^ 40, 0⟩

/-- A concrete resolved hardware sweep over parameter 0 (two points). -/
def hwSweepX : HWSweepRes := ⟨0, 1, [0, 1], 0, 1, 2, 0, 1, 1, [0, 1]⟩

/-- A concrete resolved hardware sweep over parameter 1 (two points). -/
def hwSweepY : HWSweepRes := ⟨1, 1, [0, 1], 0, 1, 2, 0, 1, 1, [0, 1]⟩

/-- A second concrete sweep over parameter 0, with a range distinct from
`hwSweepX` so that directive order is observable. -/
def gSweepB : HWSweepRes := ⟨0, 2, [0, 2], 0, 2, 2, 0, 2, 2, [0, 2]⟩

/-- A concrete registry state: every parameter holds the plain number 0 and
`swept_params` is empty. -/
def st0 : InstrState := ⟨fun _ => .num 0, ∅⟩

/-! ## General lemmas about the iteration and assembly combinators -/

theorem productAll_length (ls : List (List α)) :
    (productAll ls).length = (ls.map List.length).prod := by
  induction ls with
  | nil => rfl
  | cons xs rest ih =>
    simp only [productAll, List.length_flatMap, List.map_cons, List.prod_cons,
      List.length_map]
    rw [show (xs.map (List.length ∘ fun x => (productAll rest).map (x :: ·)))
        = xs.map fun _ => (productAll rest).length by
      exact List.map_congr_left fun a _ => by simp]
    rw [List.map_const', List.sum_replicate, smul_eq_mul, ih]


theorem length_of_mem_productAll {ls : List (List α)} {t : List α}
    (h : t ∈ productAll ls) : t.length = ls.length := by
  induction ls generalizing t with
  | nil => simp [productAll] at h; simp [h]
  | cons xs rest ih =>
    simp only [productAll, List.mem_flatMap, List.mem_map] at h
    obtain ⟨x, -, u, hu, rfl⟩ := h
    simp [ih hu]

theorem map_range_getD (t : List ℚ) :
    (List.range t.length).map (fun i => t.getD i 0) = t := by
  apply List.ext_getElem
  · simp
  · intro i h1 h2
    simp only [List.getElem_map, List.getElem_range]
    rw [List.getD_eq_getElem t 0 h2]

theorem meshCol_getD {valss : List (List ℚ)} {j : ℕ}
    (h : j < (productAll valss).length) (i : ℕ) :
    (meshCol valss i).getD j 0 = ((productAll valss).getD j []).getD i 0 := by
  unfold meshCol
  rw [List.getD_eq_getElem _ 0 (by simpa using h), List.getElem_map,
    List.getD_eq_getElem _ [] h]

theorem mesh_tuple {valss : List (List ℚ)} {j : ℕ}
    (h : j < (productAll valss).length) :
    (List.range valss.length).map (fun i => (meshCol valss i).getD j 0) =
      (productAll valss).getD j [] := by
  have hmem : (productAll valss).getD j [] ∈ productAll valss := by
    rw [List.getD_eq_getElem _ [] h]; exact List.getElem_mem h
  have hlen : ((productAll valss).getD j []).length = valss.length :=
    length_of_mem_productAll hmem
  calc (List.range valss.length).map (fun i => (meshCol valss i).getD j 0)
      = (List.range valss.length).map
          (fun i => ((productAll valss).getD j []).getD i 0) := by
        exact List.map_congr_left fun i _ => meshCol_getD h i
    _ = (productAll valss).getD j [] := by
        rw [← hlen]; exact map_range_getD _

theorem getD_eq_getElem?_getD (l : List (List ℚ)) (n : ℕ) :
    l.getD n [] = l[n]?.getD [] := by simp [List.getD]

theorem trimmed_length (l : List ℤ) (sf sl : Bool) :
    (if sl then (if sf then l.drop 1 else l).dropLast
     else (if sf then l.drop 1 else l)).length
      = l.length - (skipCount sf + skipCount sl) := by
  cases sf <;> cases sl <;>
    simp [skipCount, List.length_dropLast, List.length_drop, Nat.sub_sub]

theorem s21AttachLoop_all_gain (pg : ℕ) (l : List HWSweepRes)
    (h : ∀ s ∈ l, s.parameter = pg) :
    s21AttachLoop pg l = .ok (l.map s21Directive) := by
  induction l with
  | nil => rfl
  | cons s rest ih =>
    have h1 : s.parameter = pg := h s (List.mem_cons_self s rest)
    simp only [s21AttachLoop, if_pos h1,
      ih fun t ht => h t (List.mem_cons_of_mem s ht)]
    rfl

theorem sweepProgramDirectives_error (bound : ℕ → Bool) (hws : List HWSweepRes)
    (h : ∃ s ∈ hws, bound s.parameter = false) :
    ∃ p, sweepProgramDirectives bound hws = .error (.noBinding p) ∧
      bound p = false := by
  induction hws with
  | nil => simp at h
  | cons s rest ih =>
    by_cases hb : bound s.parameter = true
    · have hrest : ∃ t ∈ rest, bound t.parameter = false := by
        obtain ⟨t, ht, hf⟩ := h
        rcases List.mem_cons.mp ht with rfl | htr
        · rw [hb] at hf; cases hf
        · exact ⟨t, htr, hf⟩
      obtain ⟨p, hp, hbp⟩ := ih hrest
      exact ⟨p, by simp [sweepProgramDirectives, hb, hp, Except.map], hbp⟩
    · exact ⟨s.parameter, by simp [sweepProgramDirectives, hb],
        by simpa using hb⟩

theorem blockRows_length (softCombo : List ℚ) (hwValues : List (List ℚ))
    (iq : List (List ℤ)) (H : ℕ)
    (hcols : ∀ col ∈ iq, col.length = H) :
    (blockRows softCombo hwValues iq).length = iq.length * H := by
  unfold blockRows
  rw [List.length_flatMap]
  simp only [Function.comp_def, List.length_map, List.length_range]
  rw [show ((List.range iq.length).map fun k => (iq.getD k []).length)
      = (List.range iq.length).map fun _ => H by
    apply List.map_congr_left
    intro k hk
    have hk' : k < iq.length := List.mem_range.mp hk
    have hmem : iq.getD k [] ∈ iq := by
      rw [List.getD_eq_getElem _ [] hk']; exact List.getElem_mem hk'
    exact hcols _ hmem]
  rw [List.map_const', List.sum_replicate, smul_eq_mul, List.length_range]

/-- Helper for witnesses: the sweep `(start 0, stop 2, count 3)` under the
identity-scale mapper constructs successfully. -/
theorem hw_ok_example : (hardwareSweep mRound 0 0 2 3 false false).isOk = true := by
  norm_num [hardwareSweep, QPM.float2int, mRound, wrap64, fitsInt64,
    round_eq, List.range_succ, Except.isOk, Except.toBool]

/-- Helper for witnesses: the code-computed integer step of the sweep
`(start 0, stop 2, count 3)` under the identity-scale mapper fits in 64
bits. -/
theorem fit_step_example :
    fitsInt64 (mRound.float2int ((2 - 0) / ((((3 : ℕ)) : ℚ) - 1))) := by
  norm_num [QPM.float2int, mRound, fitsInt64, round_eq]

/-- Helper for witnesses: the integer code of the start value 0 under the
identity-scale mapper fits in 64 bits. -/
theorem fit_start_example : fitsInt64 (mRound.float2int 0) := by
  norm_num [QPM.float2int, mRound, fitsInt64, round_eq]

/-! ## Claim theorems -/

/-- C1 (amended): for every mapper and `(start, stop, count)` with
`count ≥ 2`, at least one value surviving the skip trimming, and the two
integer codes representable in 64 bits, `HardwareSweep` construction
succeeds — no check against the register's integer width is performed —
and the integer step is `float2int((stop - start) / (count - 1))`, the
rounded quantization of the floating-point step, not the integer-code
difference `(stop_int - start_int) / (count - 1)`. -/
theorem c1_step_formula (m : QPM) (p : ℕ) (start stop : ℚ) (num : ℕ)
    (sf sl : Bool) (h2 : 2 ≤ num) (hs : skipCount sf + skipCount sl < num)
    (hf1 : fitsInt64 (m.float2int ((stop - start) / ((num : ℚ) - 1))))
    (hf2 : fitsInt64 (m.float2int start)) :
    ∃ s, hardwareSweep m p start stop num sf sl = .ok s ∧
      s.step_int = m.float2int ((stop - start) / ((num : ℚ) - 1)) := by
  simp only [hardwareSweep]
  rw [if_neg (by omega : ¬ num = 1)]
  rw [if_neg (by simp [hf1, hf2])]
  rcases heq : (if sl then
      ((if sf then ((List.range num).map fun (k : ℕ) =>
          wrap64 (m.float2int start +
            m.float2int ((stop - start) / ((num : ℚ) - 1)) * (k : ℤ))).drop 1
        else (List.range num).map fun (k : ℕ) =>
          wrap64 (m.float2int start +
            m.float2int ((stop - start) / ((num : ℚ) - 1)) * (k : ℤ))).dropLast)
    else (if sf then ((List.range num).map fun (k : ℕ) =>
          wrap64 (m.float2int start +
            m.float2int ((stop - start) / ((num : ℚ) - 1)) * (k : ℤ))).drop 1
        else (List.range num).map fun (k : ℕ) =>
          wrap64 (m.float2int start +
            m.float2int ((stop - start) / ((num : ℚ) - 1)) * (k : ℤ)))) with
    nil | cons
  · have hlen := congrArg List.length heq
    rw [trimmed_length] at hlen
    simp at hlen
    omega
  · exact ⟨_, rfl, rfl⟩

/-- C1 counterexample: under the identity-scale mapper, the sweep
`(start 0, stop 6/5, count 3)` constructs successfully with
`step_int = 1`, while the claimed formula
`(stop_int - start_int) / (count - 1)` gives `0`; and under a fine mapper
(step `2 ^ (-40)`) the sweep `(start 0, stop 1, count 2)` constructs
successfully with `step_int = 2 ^ 40`, far beyond 32-bit register range —
construction does not fail on overflow. -/
theorem c1_counterexample :
    (hardwareSweep mRound 0 0 (6/5) 3 false false).isOk = true ∧
    getStepInt (hardwareSweep mRound 0 0 (6/5) 3 false false) = 1 ∧
    (mRound.float2int (6/5) - mRound.float2int 0) / ((3 : ℤ) - 1) = 0 ∧
    (hardwareSweep mBig 0 0 1 2 false false).isOk = true ∧
    getStepInt (hardwareSweep mBig 0 0 1 2 false false) = 2 ^ 40 := by
  norm_num [hardwareSweep, getStepInt, QPM.float2int, mRound, mBig, wrap64,
    fitsInt64, round_eq, List.range_succ, Except.isOk, Except.toBool]

/-- Witness for C1: the amended theorem applied to the concrete sweep
`(start 0, stop 2, count 3)` under the identity-scale mapper. -/
theorem c1_step_formula_witness :
    ∃ s, hardwareSweep mRound 0 0 2 3 false false = .ok s ∧
      s.step_int = mRound.float2int ((2 - 0) / ((((3 : ℕ)) : ℚ) - 1)) :=
  c1_step_formula mRound 0 0 2 3 false false (by decide) (by decide)
    fit_step_example fit_start_example

/-- C2 (amended): `S21Program.initialize` (asm_v1, `protocols/s21.py`)
attaches its register-sweep directives in reverse declaration order, while
the v2 `SweepProgram.initialize` (`protocol_base_v2.py`) attaches one
register sweep per hardware sweep in declaration order, not reversed. -/
theorem c2_attach_orders :
    (∀ pg (hws : List HWSweepRes), (∀ s ∈ hws, s.parameter = pg) →
       s21SweepDirectives pg hws = .ok (hws.reverse.map s21Directive)) ∧
    (∀ (bound : ℕ → Bool) (hws : List HWSweepRes),
       (∀ s ∈ hws, bound s.parameter = true) →
       sweepProgramDirectives bound hws = .ok (hws.map HWSweepRes.parameter)) := by
  constructor
  · intro pg hws h
    exact s21AttachLoop_all_gain pg hws.reverse fun s hs =>
      h s (List.mem_reverse.mp hs)
  · intro bound hws h
    induction hws with
    | nil => rfl
    | cons s rest ih =>
      have h1 : bound s.parameter = true := h s (List.mem_cons_self s rest)
      simp only [sweepProgramDirectives, if_pos h1,
        ih fun t ht => h t (List.mem_cons_of_mem s ht)]
      rfl

/-- C2 counterexample: for two bound hardware sweeps declared in order
`[X over parameter 0, Y over parameter 1]`, the v2 `SweepProgram` emits
its register-sweep directives as `[0, 1]` — declaration order, not the
reverse order `[1, 0]` stated by the claim. -/
theorem c2_counterexample :
    sweepProgramDirectives (fun _ => true) [hwSweepX, hwSweepY] = .ok [0, 1] ∧
    (Except.ok [0, 1] : Except HWErr (List ℕ)) ≠ .ok [1, 0] := by
  constructor
  · rfl
  · simp

/-- Witness for C2: both attach-order statements applied to concrete
two-sweep lists. -/
theorem c2_attach_orders_witness :
    s21SweepDirectives 0 [hwSweepX, gSweepB] =
      .ok ([hwSweepX, gSweepB].reverse.map s21Directive) ∧
    sweepProgramDirectives (fun _ => true) [hwSweepX, hwSweepY] =
      .ok ([hwSweepX, hwSweepY].map HWSweepRes.parameter) :=
  ⟨c2_attach_orders.1 0 _ (by decide), c2_attach_orders.2 _ _ (by decide)⟩

/-- C3: when the driver returns `r` data columns of `H` samples each per
execution (`H` the product of the resolved hardware axis lengths, after
skip trimming), the assembled result of a run over the declared software
sweeps has exactly `(product of software axis lengths) * H * r` sample
rows, and every row carries a full software coordinate tuple (one value
per software sweep, a tuple of the visited Cartesian product) and a full
hardware coordinate tuple (one value per hardware axis, a point of the
hardware product grid). -/
theorem c3_row_count (sweeps : List SWSweepRes) (hwValues : List (List ℚ))
    (acq : List ℚ → List (List ℤ)) (r H : ℕ)
    (hH : H = (hwValues.map List.length).prod)
    (hshape : ∀ combo ∈ productAll (sweeps.map SWSweepRes.values),
       (acq combo).length = r ∧ ∀ col ∈ acq combo, col.length = H) :
    (runAssembled sweeps hwValues acq).length =
      ((sweeps.map fun s => s.values.length).prod) * H * r ∧
    ∀ row ∈ runAssembled sweeps hwValues acq,
      row.soft ∈ productAll (sweeps.map SWSweepRes.values) ∧
      row.soft.length = sweeps.length ∧
      row.hard ∈ productAll hwValues ∧
      row.hard.length = hwValues.length := by
  constructor
  · unfold runAssembled
    rw [List.length_flatMap]
    simp only [Function.comp_def]
    rw [show ((productAll (sweeps.map SWSweepRes.values)).map fun combo =>
        (blockRows combo hwValues (acq combo)).length)
      = (productAll (sweeps.map SWSweepRes.values)).map fun _ => r * H by
        apply List.map_congr_left
        intro combo hc
        rw [blockRows_length _ _ _ H (hshape combo hc).2, (hshape combo hc).1]]
    rw [List.map_const', List.sum_replicate, smul_eq_mul, productAll_length,
      List.map_map]
    simp only [Function.comp_def]
    ring
  · intro row hrow
    unfold runAssembled at hrow
    rw [List.mem_flatMap] at hrow
    obtain ⟨combo, hcombo, hrow⟩ := hrow
    unfold blockRows at hrow
    rw [List.mem_flatMap] at hrow
    obtain ⟨k, hk, hrow⟩ := hrow
    rw [List.mem_map] at hrow
    obtain ⟨j, hj, rfl⟩ := hrow
    have hk' : k < (acq combo).length := List.mem_range.mp hk
    have hcol : (acq combo).getD k [] ∈ acq combo := by
      rw [List.getD_eq_getElem _ [] hk']; exact List.getElem_mem hk'
    have hjH : j < (productAll hwValues).length := by
      rw [productAll_length, ← hH, ← (hshape combo hcombo).2 _ hcol]
      exact List.mem_range.mp hj
    refine ⟨hcombo, by simpa using length_of_mem_productAll hcombo, ?_, ?_⟩
    · rw [mesh_tuple hjH, List.getD_eq_getElem _ [] hjH]
      exact List.getElem_mem hjH
    · rw [mesh_tuple hjH]
      exact length_of_mem_productAll (by
        rw [List.getD_eq_getElem _ [] hjH]; exact List.getElem_mem hjH)

/-- Witness for C3: software axes of sizes 3 and 2, one hardware axis of 5
points and 2 data columns give `3 * 2 * 5 * 2 = 60` sample rows. -/
theorem c3_row_count_witness :
    (5 : ℕ) = ([[(1 : ℚ), 2, 3, 4, 5]].map List.length).prod ∧
    (runAssembled [⟨[⟨0, "Hz"⟩], [1, 2, 3]⟩, ⟨[⟨1, "Hz"⟩], [4, 5]⟩]
        [[1, 2, 3, 4, 5]]
        (fun _ => [List.replicate 5 0, List.replicate 5 1])).length =
      (([⟨[⟨0, "Hz"⟩], [1, 2, 3]⟩,
         (⟨[⟨1, "Hz"⟩], [4, 5]⟩ : SWSweepRes)].map fun s => s.values.length).prod)
        * 5 * 2 :=
  ⟨by decide,
   (c3_row_count _ _ _ 2 5 (by decide) (by decide)).1⟩

/-- C4: when some hardware sweep targets a parameter whose owning
instrument has no register binding, program construction stops with the
`NotImplementedError` of `SweepProgram.initialize` for an unbound
parameter, the driver's `acquire` is never invoked for that build, and the
error propagates to the caller uncaught. -/
theorem c4_no_binding_fatal (bound : ℕ → Bool) (hws : List HWSweepRes)
    (h : ∃ s ∈ hws, bound s.parameter = false) :
    (runHardwareSweepsTrace bound hws).2 = 0 ∧
    ∃ p, (runHardwareSweepsTrace bound hws).1 = .error (.noBinding p) ∧
      bound p = false := by
  obtain ⟨p, hp, hbp⟩ := sweepProgramDirectives_error bound hws h
  unfold runHardwareSweepsTrace
  rw [hp]
  exact ⟨rfl, p, rfl, hbp⟩

/-- Witness for C4: a run over sweeps `[X over parameter 0, Y over
parameter 1]` where only parameter 0 is bound makes zero `acquire` calls
and surfaces the binding error. -/
theorem c4_no_binding_fatal_witness :
    (∃ s ∈ [hwSweepX, hwSweepY], (fun p => decide (p = 0)) s.parameter = false) ∧
    (runHardwareSweepsTrace (fun p => decide (p = 0)) [hwSweepX, hwSweepY]).2 = 0 ∧
    ∃ p, (runHardwareSweepsTrace (fun p => decide (p = 0))
        [hwSweepX, hwSweepY]).1 = .error (.noBinding p) ∧
      (fun p => decide (p = 0)) p = false :=
  ⟨by decide, c4_no_binding_fatal _ _ (by decide)⟩

/-- C5: for every mapper with a positive quantization step and every value
`v`, `int_to_float(float_to_int(v))` differs from `v` by at most one
quantization step, the step being `int_to_float(1) - int_to_float(0)`. -/
theorem c5_mapper_round_trip (m : QPM) (h : 0 < m.step) (v : ℚ) :
    |m.int2float (m.float2int v) - v| ≤ m.int2float 1 - m.int2float 0 := by
  unfold QPM.int2float QPM.float2int
  set q := (v - m.offset) / m.step with hq
  have hv : q * m.step = v - m.offset := div_mul_cancel₀ _ (ne_of_gt h)
  have h1 : m.offset + (round q : ℚ) * m.step - v
      = ((round q : ℚ) - q) * m.step := by
    rw [sub_mul, hv]; ring
  rw [h1, abs_mul, abs_of_pos h]
  have h2 : |(round q : ℚ) - q| ≤ 1 / 2 := by
    rw [abs_sub_comm]; exact abs_sub_round q
  rw [show (m.offset + ((1 : ℤ) : ℚ) * m.step
      - (m.offset + ((0 : ℤ) : ℚ) * m.step)) = m.step by push_cast; ring]
  nlinarith [h2, h]

/-- Witness for C5: the round trip of `1/3` through the identity-scale
mapper stays within one quantization step. -/
theorem c5_mapper_round_trip_witness :
    0 < mRound.step ∧
    |mRound.int2float (mRound.float2int (1/3)) - 1/3| ≤
      mRound.int2float 1 - mRound.int2float 0 :=
  ⟨by decide, c5_mapper_round_trip mRound (by decide) (1/3)⟩

/-- C6: for software sweeps declared in order `[A, B]` with A holding
parameters `p0, p1` and 3 values and B holding parameter `p2` and 2
values, the orchestrator visits the Cartesian product with A outermost, in
order `(A0,B0), (A0,B1), (A1,B0), (A1,B1), (A2,B0), (A2,B1)`, setting
every parameter of every sweep to the current tuple value before each
rebuild-and-execute. -/
theorem c6_software_order (p0 p1 p2 : ℕ) (u0 u1 u2 : String)
    (a0 a1 a2 b0 b1 : ℚ) :
    runTrace [⟨[⟨p0, u0⟩, ⟨p1, u1⟩], [a0, a1, a2]⟩, ⟨[⟨p2, u2⟩], [b0, b1]⟩] =
      [.set p0 a0, .set p1 a0, .set p2 b0, .build,
       .set p0 a0, .set p1 a0, .set p2 b1, .build,
       .set p0 a1, .set p1 a1, .set p2 b0, .build,
       .set p0 a1, .set p1 a1, .set p2 b1, .build,
       .set p0 a2, .set p1 a2, .set p2 b0, .build,
       .set p0 a2, .set p1 a2, .set p2 b1, .build] := rfl

/-- C7: constructing a software sweep over parameters whose units are not
all identical fails with the unit-mismatch assertion, and no value list
(neither a linspace nor an explicit list) is materialized for the rejected
sweep. -/
theorem c7_unit_mismatch (params : List ParamE) (spec : ValuesSpec)
    (sf sl : Bool) (hp : ∃ p ∈ params, ∃ q ∈ params, p.unit ≠ q.unit) :
    softwareSweep params spec sf sl = (.error .unitMismatch, false) := by
  obtain ⟨p, hp1, q, hq1, hne⟩ := hp
  have hd : ((params.map ParamE.unit).dedup).length ≠ 1 := by
    intro h1
    obtain ⟨a, ha⟩ := List.length_eq_one.mp h1
    have h2 : p.unit ∈ (params.map ParamE.unit).dedup := by
      rw [List.mem_dedup]; exact List.mem_map_of_mem _ hp1
    have h3 : q.unit ∈ (params.map ParamE.unit).dedup := by
      rw [List.mem_dedup]; exact List.mem_map_of_mem _ hq1
    rw [ha] at h2 h3
    simp at h2 h3
    exact hne (h2.trans h3.symm)
  unfold softwareSweep
  rw [if_pos hd]

/-- Witness for C7: a sweep over a Hz parameter and a seconds parameter is
rejected with no value list computed. -/
theorem c7_unit_mismatch_witness :
    (∃ p ∈ [(⟨0, "Hz"⟩ : ParamE), ⟨1, "s"⟩],
      ∃ q ∈ [(⟨0, "Hz"⟩ : ParamE), ⟨1, "s"⟩], p.unit ≠ q.unit) ∧
    softwareSweep [⟨0, "Hz"⟩, ⟨1, "s"⟩] (.span 0 1 5) false false =
      (.error .unitMismatch, false) :=
  ⟨by decide, c7_unit_mismatch _ _ _ _ (by decide)⟩

/-- C8 (amended): in the assembled output of `S21Protocol.run_program`,
the software coordinate columns come first but in reverse declaration
order (`software_expt_data.reverse()`), followed by the hardware axis
columns in build order: the column at position `i < m` is the software
column of iterator `m - 1 - i`, and the column at position `m + j` is the
hardware column of axis `j`. -/
theorem c8_column_order (iters hwValues : List (List ℚ)) :
    (∀ i < iters.length,
       (runProgramColumns iters hwValues).getD i [] =
         softColumn iters ((hwValues.map List.length).prod)
           (iters.length - 1 - i)) ∧
    (∀ j < hwValues.length,
       (runProgramColumns iters hwValues).getD (iters.length + j) [] =
         hardColumn iters hwValues j) := by
  constructor
  · intro i hi
    unfold runProgramColumns
    rw [getD_eq_getElem?_getD, List.getElem?_append, if_pos (by simpa using hi),
      List.getElem?_reverse (by simpa using hi)]
    have h2 : iters.length - 1 - i < iters.length := by omega
    rw [show (((List.range iters.length).map
        (softColumn iters ((hwValues.map List.length).prod))).length - 1 - i)
      = iters.length - 1 - i by simp]
    rw [List.getElem?_map, List.getElem?_range h2]
    rfl
  · intro j hj
    unfold runProgramColumns
    rw [getD_eq_getElem?_getD, List.getElem?_append,
      if_neg (by simp), show iters.length + j -
        (((List.range iters.length).map
          (softColumn iters ((hwValues.map List.length).prod))).reverse).length
        = j by simp]
    rw [List.getElem?_map, List.getElem?_range hj]
    rfl

/-- C8 counterexample: with software iterators declared `[A = [10, 20],
B = [30]]` and one hardware axis `[7]`, the first assembled coordinate
column is `[30, 30]` — the column of the last-declared iterator B — and
not `[10, 20]`, the column of the first-declared iterator A. -/
theorem c8_counterexample :
    (runProgramColumns [[10, 20], [30]] [[7]]).getD 0 [] = [30, 30] ∧
    ([(30 : ℚ), 30] : List ℚ) ≠ [10, 20] := by
  constructor
  · rfl
  · decide

/-- Witness for C8: the amended column-order statement applied to the
concrete run with iterators `[[10, 20], [30]]` and hardware axis `[[7]]`. -/
theorem c8_column_order_witness :
    (runProgramColumns [[10, 20], [30]] [[7]]).getD 0 [] =
      softColumn [[10, 20], [30]] (([[(7 : ℚ)]].map List.length).prod) 1 ∧
    (runProgramColumns [[10, 20], [30]] [[7]]).getD (2 + 0) [] =
      hardColumn [[10, 20], [30]] [[7]] 0 :=
  ⟨(c8_column_order _ _).1 0 (by decide), (c8_column_order _ _).2 0 (by decide)⟩

/-- C9: after a completed `set()`, the parameter belongs to its
instrument's `swept_params` iff the value just set is a sweep object, and
the registry invariant — `swept_params` equals the set of parameters whose
current value is a sweep — is preserved by every `set()`. -/
theorem c9_swept_registry (st : InstrState) (p : ℕ) (v : SweepableValue) :
    (p ∈ (doSet st p v).swept ↔ v.isSweep = true) ∧
    (sweptInvariant st → sweptInvariant (doSet st p v)) := by
  constructor
  · unfold doSet
    cases hv : v.isSweep <;> simp [hv]
  · intro hInv q
    unfold doSet sweptInvariant at *
    by_cases hq : q = p
    · subst hq
      cases hv : v.isSweep <;> simp [hv]
    · cases hv : v.isSweep <;> simp [hv, hq, hInv q]

/-- Witness for C9: setting a sweep value on parameter 0 of a clean state
registers it and preserves the invariant. -/
theorem c9_swept_registry_witness :
    (0 ∈ (doSet st0 0 (.sweep 0 1)).swept ↔
      (SweepableValue.sweep 0 1).isSweep = true) ∧
    sweptInvariant (doSet st0 0 (.sweep 0 1)) :=
  ⟨(c9_swept_registry st0 0 (.sweep 0 1)).1,
   (c9_swept_registry st0 0 (.sweep 0 1)).2
     (fun p => by simp [st0, SweepableValue.isSweep])⟩

/-- C10: `HardwareSweep` construction succeeds only when `num ≥ 2` and at
least one value survives the skip trimming; `num = 1` always fails with
the division-by-zero of the step computation; and `num = 2` with both skip
flags set fails with an index error on the emptied value list. -/
theorem c10_constructor_safety :
    (∀ (m : QPM) (p : ℕ) (start stop : ℚ) (num : ℕ) (sf sl : Bool),
       (hardwareSweep m p start stop num sf sl).isOk = true →
       2 ≤ num ∧ 1 ≤ num - (skipCount sf + skipCount sl)) ∧
    (∀ (m : QPM) (p : ℕ) (start stop : ℚ) (sf sl : Bool),
       hardwareSweep m p start stop 1 sf sl = .error .divByZero) ∧
    hardwareSweep mRound 0 0 1 2 true true = .error .indexError := by
  refine ⟨?_, ?_, ?_⟩
  · intro m p start stop num sf sl h
    simp only [hardwareSweep] at h
    split at h
    · simp [Except.isOk, Except.toBool] at h
    · rename_i hn1
      split at h
      · simp [Except.isOk, Except.toBool] at h
      · split at h
        · simp [Except.isOk, Except.toBool] at h
        · rename_i v0 tail heq
          have hlen := congrArg List.length heq
          rw [trimmed_length] at hlen
          simp at hlen
          omega
  · intro m p start stop sf sl
    simp [hardwareSweep]
  · norm_num [hardwareSweep, QPM.float2int, mRound, wrap64, fitsInt64,
      round_eq, List.range_succ, Except.isOk]

/-- Witness for C10: the successful sweep `(start 0, stop 2, count 3)`
satisfies the necessity bounds. -/
theorem c10_constructor_safety_witness :
    (hardwareSweep mRound 0 0 2 3 false false).isOk = true ∧
    (2 ≤ 3 ∧ 1 ≤ 3 - (skipCount false + skipCount false)) :=
  ⟨hw_ok_example,
   c10_constructor_safety.1 mRound 0 0 2 3 false false hw_ok_example⟩

end QcodesQick
